import Mathlib

/-!
Verification of the CHAT-SYSTEM chat server (chat-server/src/chatServer.c,
chat-server/src/serverIPC.c) and chat client (chat-client) against its
natural-language specification.

C strings are modelled as `List Char` (the characters before the first null
terminator; the stored strings never contain an embedded null).  The C
`strncpy(dst, src, n)` followed by explicit null termination stores
`src.take n`; `strncmp(a, b, n) == 0` holds exactly when `a.take n = b.take n`
(see `strncmpEq`): comparison stops at the first difference, and a null
terminator inside the first `n` bytes of both strings makes the comparison an
exact string equality.

Machine integers: all counters involved stay far below 2^31, so they are
modelled as `Nat`; C status codes, which are compared against the negative
sentinels below, are modelled as `Int`.
-/

namespace ChatSystem

/-- commonMessaging.h: CLIENT_IP_LENGTH. -/
def CLIENT_IP_LENGTH : Nat := 15

/-- commonMessaging.h: CLIENT_USERID_LENGTH. -/
def CLIENT_USERID_LENGTH : Nat := 5

/-- commonMessaging.h: BROADCAST_MESSAGE_LENGTH. -/
def BROADCAST_MESSAGE_LENGTH : Nat := 40

/-- commonMessaging.h: CLIENT_MESSAGE_LENGTH. -/
def CLIENT_MESSAGE_LENGTH : Nat := 80

/-- serverIPC.h: MAX_CLIENTS. -/
def MAX_CLIENTS : Nat := 10

/-- serverIPC.h: SUCCESS. -/
def SUCCESS : Int := 0

/-- serverIPC.h: ENTRY_NOT_FOUND_OR_NULL. -/
def ENTRY_NOT_FOUND_OR_NULL : Int := -1

/-- serverIPC.h: TOO_MANY_CLIENTS. -/
def TOO_MANY_CLIENTS : Int := -2

/-- chatServer.h: MESSAGE_PROCESS_QUIT. -/
def MESSAGE_PROCESS_QUIT : Int := 1

/-- chatServer.h: MESSAGE_PROCESS_SUCCESS. -/
def MESSAGE_PROCESS_SUCCESS : Int := 0

/-- chatServer.h: MESSAGE_PROCESS_FAILED. -/
def MESSAGE_PROCESS_FAILED : Int := -1

/-- chatServer.h: REGISTRATION_FAILED. -/
def REGISTRATION_FAILED : Int := -2

/-- chatServer.h: SOCKET_ERROR. -/
def SOCKET_ERROR : Int := -1

/-- chatServer.h: SERVER_REGISTRATION_MSG, the registration token. -/
def SERVER_REGISTRATION_MSG : List Char := ">>hello<<".data

/-- chatServer.h: SERVER_QUIT_MSG, the quit token. -/
def SERVER_QUIT_MSG : List Char := ">>bye<<".data

/-- chatServer.h: SERVER_REGISTRATION_SUCCESS_MSG. -/
def SERVER_REGISTRATION_SUCCESS_MSG : List Char := ">>success<<".data

/-- chatServer.h: SERVER_REGISTRATION_FAIL_MSG. -/
def SERVER_REGISTRATION_FAIL_MSG : List Char := ">>failed<<".data

/-- C `isspace` in the default locale: space and the five control
whitespace characters 0x09 to 0x0d. -/
def isSpaceC (c : Char) : Bool :=
  c == ' ' || (9 ≤ c.toNat && c.toNat ≤ 13)

/-- chatServer.c `isWhitespace`: true when every character is whitespace;
true for the empty string. -/
def isWhitespace (s : List Char) : Bool :=
  s.all isSpaceC

/-- Predicate for `strncmp(a, b, n) == 0` on null-terminated strings without embedded
nulls: the first `n` characters (cut short by either terminator) agree. -/
def strncmpEq (a b : List Char) (n : Nat) : Bool :=
  a.take n == b.take n

/-- serverIPC.h `ClientState`: one table slot of the registry.  The pthread
thread id is opaque; it is modelled as a `Nat`.  The two string fields hold
the characters stored before the null terminator of the fixed C buffers. -/
structure ClientState where
  threadID : Nat
  clientIP : List Char
  clientUserID : List Char
  clientSocket : Int
deriving DecidableEq, Repr

/-- The all-zero `ClientState`: both strings empty (first byte null),
thread id 0, socket 0.  This is the slot value written by
`initSharedMemory` and by the trailing-slot cleanup of `removeFromList`. -/
def emptyClient : ClientState :=
  { threadID := 0, clientIP := [], clientUserID := [], clientSocket := 0 }

instance : Inhabited ClientState := ⟨emptyClient⟩

/-- The registry fields of serverIPC.h `SharedData`: the fixed array
`connectedClients[MAX_CLIENTS]` (a list of length `MAX_CLIENTS`) and
`numClients`.  The remaining fields (message queue id, server socket,
running flag, mutex) do not participate in the registry operations and are
modelled separately where a claim needs them. -/
structure SharedData where
  numClients : Nat
  connectedClients : List ClientState
deriving DecidableEq, Repr

/-- Slot read `sharedDataP->connectedClients[i]` (always in bounds in the
C code; out-of-range reads return the zero slot). -/
def cgetD (sd : SharedData) (i : Nat) : ClientState :=
  sd.connectedClients.getD i emptyClient

/-- The registry state established by `initSharedMemory`: zero clients and
every slot zeroed. -/
def initialSharedData : SharedData :=
  { numClients := 0, connectedClients := List.replicate MAX_CLIENTS emptyClient }

/-- serverIPC.c `findThreadIDInList`: linear scan of the first `numClients`
slots for a matching thread id, returning the first match or
`ENTRY_NOT_FOUND_OR_NULL`. -/
def findThreadIDInList (threadID : Nat) (sd : SharedData) : Int :=
  match (List.range sd.numClients).find? (fun i => (cgetD sd i).threadID == threadID) with
  | some i => (i : Int)
  | none => ENTRY_NOT_FOUND_OR_NULL

/-- serverIPC.c `findUserInList`: linear scan of the first `numClients`
slots for a slot whose IP matches under `strncmp(_, _, CLIENT_IP_LENGTH)`
and whose user id matches under `strncmp(_, _, CLIENT_USERID_LENGTH)`,
returning the first match or `ENTRY_NOT_FOUND_OR_NULL`. -/
def findUserInList (clientIP clientUserID : List Char) (sd : SharedData) : Int :=
  match (List.range sd.numClients).find? (fun i =>
      strncmpEq (cgetD sd i).clientIP clientIP CLIENT_IP_LENGTH &&
      strncmpEq (cgetD sd i).clientUserID clientUserID CLIENT_USERID_LENGTH) with
  | some i => (i : Int)
  | none => ENTRY_NOT_FOUND_OR_NULL

/-- serverIPC.c `addToList`: when `numClients < MAX_CLIENTS`, writes the new
entry at index `numClients` (the IP truncated by
`strncpy(_, _, sizeof(...) - 1)` to `CLIENT_IP_LENGTH` characters, the user
id to `CLIENT_USERID_LENGTH` characters) and increments `numClients`;
otherwise returns `TOO_MANY_CLIENTS` without touching the state.  The
pointer-null guard of the C code has no counterpart here because the model
has no null pointers. -/
def addToList (threadID : Nat) (clientIP clientUserID : List Char) (clientSocket : Int)
    (sd : SharedData) : Int × SharedData :=
  let currentIndex := sd.numClients
  if currentIndex < MAX_CLIENTS then
    (SUCCESS,
      { numClients := currentIndex + 1,
        connectedClients := sd.connectedClients.set currentIndex
          { threadID := threadID,
            clientIP := clientIP.take CLIENT_IP_LENGTH,
            clientUserID := clientUserID.take CLIENT_USERID_LENGTH,
            clientSocket := clientSocket } })
  else
    (TOO_MANY_CLIENTS, sd)

/-- The shift loop of serverIPC.c `removeFromList`:
`for (i = entryIndex; i < numClients; i++) clients[i] = clients[i+1]`,
executed left to right, so each slot receives the original content of its
right neighbour. -/
def shiftLoop (cs : List ClientState) (i n : Nat) : List ClientState :=
  if i < n then shiftLoop (cs.set i (cs.getD (i + 1) emptyClient)) (i + 1) n else cs
termination_by n - i

/-- serverIPC.c `removeFromList`: on the `ENTRY_NOT_FOUND_OR_NULL` sentinel,
returns it and changes nothing.  Otherwise decrements `numClients`, shifts
every later entry left by one, and zeroes the vacated trailing slot (guarded
by `numClients < MAX_CLIENTS`). -/
def removeFromList (entryIndex : Int) (sd : SharedData) : Int × SharedData :=
  if entryIndex ≠ ENTRY_NOT_FOUND_OR_NULL then
    let n := sd.numClients - 1
    let shifted := shiftLoop sd.connectedClients entryIndex.toNat n
    let cleaned := if n < MAX_CLIENTS then shifted.set n emptyClient else shifted
    (entryIndex, { numClients := n, connectedClients := cleaned })
  else
    (ENTRY_NOT_FOUND_OR_NULL, sd)

/-- commonMessaging.h `Broadcast`: the server-to-client message shape.
Each field holds the characters before the null terminator of its fixed
buffer. -/
structure Broadcast where
  clientIP : List Char
  clientUserID : List Char
  message : List Char
deriving DecidableEq, Repr

/-- commonMessaging.h `ClientMessage`: the client-to-server message shape
as produced by the decoder. -/
structure ClientMessage where
  clientUserID : List Char
  message : List Char
deriving DecidableEq, Repr

/-- chatServer.c `sendServerMessage`: the reply Broadcast it builds and
sends, with both origin fields empty and the message copied by
`strncpy(_, _, BROADCAST_MESSAGE_LENGTH + 1)`. -/
def sendServerMessage (serverMessage : List Char) : Broadcast :=
  { clientIP := [], clientUserID := [],
    message := serverMessage.take (BROADCAST_MESSAGE_LENGTH + 1) }

/-- chatServer.c `processMessage`, registration branch
(`isRegistration != 0`), after the socket read and the JSON decode.
Inputs: the `read` return value, the handler thread id, the peer IP from
`getClientIP`, the decoded `ClientMessage`, the client socket, and the
registry state.  Output: the `processMessage` return value, the list of
reply Broadcasts sent on the client socket (in order), and the registry
state after the call. -/
def processRegistration (numBytesRead : Int) (threadID : Nat) (clientIP : List Char)
    (cm : ClientMessage) (clientSocket : Int) (sd : SharedData) :
    Int × List Broadcast × SharedData :=
  if numBytesRead = -1 ∨ cm.clientUserID.length = 0 ∨ isWhitespace cm.clientUserID then
    (MESSAGE_PROCESS_FAILED, [sendServerMessage SERVER_REGISTRATION_FAIL_MSG], sd)
  else
    let foundIndex := findUserInList clientIP cm.clientUserID sd
    if strncmpEq cm.message SERVER_REGISTRATION_MSG (SERVER_REGISTRATION_MSG.length + 1)
        ∧ foundIndex = ENTRY_NOT_FOUND_OR_NULL then
      let added := addToList threadID clientIP cm.clientUserID clientSocket sd
      if added.1 = TOO_MANY_CLIENTS then
        (MESSAGE_PROCESS_FAILED, [], added.2)
      else
        (MESSAGE_PROCESS_SUCCESS, [sendServerMessage SERVER_REGISTRATION_SUCCESS_MSG], added.2)
    else
      (REGISTRATION_FAILED, [sendServerMessage SERVER_REGISTRATION_FAIL_MSG], sd)

/-- chatServer.c `clientHandler`, line 362: a registration attempt whose
`processMessage` result is not `MESSAGE_PROCESS_SUCCESS` makes the handler
close the client socket and exit, with no retry. -/
def handlerDropsAfterRegistration (processResult : Int) : Bool :=
  processResult != MESSAGE_PROCESS_SUCCESS

/-- The backward whitespace scan of chatServer.c `splitString`:
`for (i = maxSize - 1; i >= 0; i--) if (isspace(input[i])) ...` returns the
largest whitespace index below `bound`, or none.  Reads beyond the string
see the null terminator, which is not whitespace. -/
def lastSpaceBelow (input : List Char) : Nat → Option Nat
  | 0 => none
  | k + 1 =>
    if isSpaceC (input.getD k (Char.ofNat 0)) then some k else lastSpaceBelow input k

/-- The leading-whitespace skip of chatServer.c `splitString`:
`while (isspace(input[splitPoint]) && splitPoint < inputLen) splitPoint++`.
(`input[inputLen]` is the null terminator, so the first conjunct already
fails there.) -/
def skipSpaces (input : List Char) (sp : Nat) : Nat :=
  if isSpaceC (input.getD sp (Char.ofNat 0)) ∧ sp < input.length then
    skipSpaces input (sp + 1)
  else sp
termination_by input.length - sp

/-- chatServer.c `splitString`: splits `input` into the two output buffers.
The split point is the last whitespace index below `maxSize` when the input
is longer than `maxSize`, demoted to exactly `maxSize` when no whitespace
was found or `inputLen - splitPoint >= maxSize - 1`; the second part then
starts after the run of whitespace at the split point. -/
def splitString (input : List Char) (maxSize : Nat) : List Char × List Char :=
  let inputLen := input.length
  let found : Option Nat := if inputLen > maxSize then lastSpaceBelow input maxSize else none
  let splitPoint : Nat :=
    match found with
    | none => maxSize
    | some i => if inputLen - i ≥ maxSize - 1 then maxSize else i
  let firstPart := input.take splitPoint
  let sp2 := skipSpaces input splitPoint
  let secondPart := input.drop sp2
  (firstPart, secondPart)

/-- chatServer.c `sendMessageToQueue`: the Broadcasts placed on the message
queue for one inbound chat message.  A message longer than
`BROADCAST_MESSAGE_LENGTH` is split into two Broadcasts by `splitString`;
otherwise a single Broadcast carries the (`strncpy`-truncated) text.  All
Broadcasts carry the IP and user id of the sender, truncated to their buffer
bounds. -/
def sendMessageToQueue (clientIP : List Char) (cm : ClientMessage) : List Broadcast :=
  let origin := fun m =>
    { clientIP := clientIP.take CLIENT_IP_LENGTH,
      clientUserID := cm.clientUserID.take CLIENT_USERID_LENGTH,
      message := m : Broadcast }
  if cm.message.length > BROADCAST_MESSAGE_LENGTH then
    let parts := splitString cm.message BROADCAST_MESSAGE_LENGTH
    [origin parts.1, origin parts.2]
  else
    [origin (cm.message.take BROADCAST_MESSAGE_LENGTH)]

/-- The fan-out loop of chatServer.c `chatBroadcaster` (run under the
registry mutex): `for (i = 0; i < numClients; i++) send(socket_i, msg)`.
`sendOk i` is the outcome of the i-th `send`; the loop never inspects it,
so it is threaded through only to record each attempt.  Each list element
is (socket, delivered message, send outcome). -/
def fanOutFrom (sd : SharedData) (msg : List Char) (sendOk : Nat → Bool) (i : Nat) :
    List (Int × List Char × Bool) :=
  if i < sd.numClients then
    ((cgetD sd i).clientSocket, msg, sendOk i) :: fanOutFrom sd msg sendOk (i + 1)
  else []
termination_by sd.numClients - i

/-- The delivery pass of one dequeued Broadcast over the registry. -/
def chatBroadcasterFlush (sd : SharedData) (msg : List Char) (sendOk : Nat → Bool) :
    List (Int × List Char × Bool) :=
  fanOutFrom sd msg sendOk 0

/-- The two phases of chatServer.c `clientConnectionMonitor`: the arming
loop (wait until `numClients > 0`) and the watching loop (shut down when
`numClients <= 0`). -/
inductive MonPhase where
  | arming
  | watching
  | stopped
deriving DecidableEq, Repr

/-- The monitor-visible server state: the monitor phase, the shared
`serverIsRunning` flag, and whether the listening socket is still open. -/
structure MonitorSys where
  phase : MonPhase
  serverIsRunning : Bool
  socketOpen : Bool
deriving DecidableEq, Repr

/-- One poll iteration of `clientConnectionMonitor`, given the value of
`sharedDataP->numClients` observed under the mutex at that poll: the arming
loop leaves everything unchanged until it observes a positive count; the
watching loop, on observing count zero, closes the server socket
(`closeServerSocket`), clears `serverIsRunning`, and exits. -/
def monitorPoll (observedClients : Nat) (s : MonitorSys) : MonitorSys :=
  match s.phase with
  | MonPhase.arming =>
    if observedClients > 0 then { s with phase := MonPhase.watching } else s
  | MonPhase.watching =>
    if observedClients = 0 then
      { phase := MonPhase.stopped, serverIsRunning := false, socketOpen := false }
    else s
  | MonPhase.stopped => s

/-- The monitor run over a sequence of per-poll observed client counts,
starting in the arming phase with the server running (as set by
`initSharedMemory`) and the listening socket open. -/
def monitorRun (observed : Nat → Nat) : Nat → MonitorSys
  | 0 => { phase := MonPhase.arming, serverIsRunning := true, socketOpen := true }
  | k + 1 => monitorPoll (observed k) (monitorRun observed k)

/-- chatServer.c `runServer`, accept-failure branch (lines 194-206): when
`accept` fails the loop always breaks (the listener stops accepting); the
return value is `SOCKET_ERROR` only if `serverIsRunning` was still set,
i.e. an accept failure after the monitor shut the server down is the
expected termination path.  Result: (return value, keeps accepting). -/
def listenerOnAcceptFailure (serverIsRunning : Bool) (retVal : Int) : Int × Bool :=
  (if serverIsRunning then SOCKET_ERROR else retVal, false)

/-- chat-client HISTORY_SIZE. -/
def HISTORY_SIZE : Nat := 10

/-- chat-client MESSAGE_MAX_LENGTH. -/
def MESSAGE_MAX_LENGTH : Nat := 80

/-- chatClient.h `MessageHistory`: the client-side ring buffer of displayed
messages.  The C field `end` is a Lean keyword and is rendered `endIdx`. -/
structure MessageHistory where
  messages : List (List Char)
  start : Nat
  endIdx : Nat
  count : Nat
deriving DecidableEq, Repr

/-- The global `messageHistory` initializer: start, end and count zero, and
(being a zero-initialized C global) every message slot an empty string. -/
def messageHistoryInit : MessageHistory :=
  { messages := List.replicate HISTORY_SIZE [], start := 0, endIdx := 0, count := 0 }

/-- chat-client `add_message_to_history`: `strncpy` the message (truncated
to `MESSAGE_MAX_LENGTH - 1` characters) into slot `end`, advance `end`
modulo `HISTORY_SIZE`, then either grow `count` or, when the buffer is
full, advance `start` as well. -/
def add_message_to_history (message : List Char) (h : MessageHistory) : MessageHistory :=
  let stored := message.take (MESSAGE_MAX_LENGTH - 1)
  let written := h.messages.set h.endIdx stored
  let newEnd := (h.endIdx + 1) % HISTORY_SIZE
  if h.count < HISTORY_SIZE then
    { messages := written, start := h.start, endIdx := newEnd, count := h.count + 1 }
  else
    { messages := written, start := (h.start + 1) % HISTORY_SIZE, endIdx := newEnd,
      count := h.count }

/-! ### Helper lemmas -/

theorem getD_set_self {α : Type} (l : List α) (i : Nat) (a d : α) (h : i < l.length) :
    (l.set i a).getD i d = a := by
  induction l generalizing i with
  | nil => simp at h
  | cons x xs ih =>
    cases i with
    | zero => rfl
    | succ n => exact ih n (by simpa using h)

theorem getD_set_of_ne {α : Type} (l : List α) (i j : Nat) (a d : α) (h : i ≠ j) :
    (l.set i a).getD j d = l.getD j d := by
  induction l generalizing i j with
  | nil => rfl
  | cons x xs ih =>
    cases i with
    | zero =>
      cases j with
      | zero => exact absurd rfl h
      | succ m => rfl
    | succ n =>
      cases j with
      | zero => rfl
      | succ m => exact ih n m (fun hnm => h (by simpa using hnm))

theorem getD_eq_default_of_ge {α : Type} (l : List α) (i : Nat) (d : α)
    (h : l.length ≤ i) : l.getD i d = d := by
  induction l generalizing i with
  | nil => rfl
  | cons x xs ih =>
    cases i with
    | zero => simp at h
    | succ n => exact ih n (by simpa using h)

/-- Comparing with `strncmp(a, tok, strlen(tok) + 1) == 0` is exact string equality: the
bound covers the null terminator of the token. -/
theorem strncmpEq_sizeof (a b : List Char) :
    strncmpEq a b (b.length + 1) = true ↔ a = b := by
  unfold strncmpEq
  rw [beq_iff_eq, List.take_of_length_le (Nat.le_succ b.length)]
  constructor
  · intro h
    have hlen : min (b.length + 1) a.length = b.length := by
      simpa using congrArg List.length h
    have : a.length ≤ b.length + 1 := by omega
    calc a = a.take (b.length + 1) := (List.take_of_length_le this).symm
    _ = b := h
  · intro h
    subst h
    exact List.take_of_length_le (Nat.le_succ a.length)

/-- Comparing with `strncmp(stored, query, n) == 0` when the stored string is at most `n`
characters: the stored string must equal the truncated query. -/
theorem strncmpEq_stored (a b : List Char) (n : Nat) (ha : a.length ≤ n) :
    strncmpEq a b n = true ↔ a = b.take n := by
  unfold strncmpEq
  rw [beq_iff_eq, List.take_of_length_le ha]

theorem shiftLoop_length (cs : List ClientState) (i n : Nat) :
    (shiftLoop cs i n).length = cs.length := by
  unfold shiftLoop
  split
  · rw [shiftLoop_length]
    exact List.length_set cs i _
  · rfl
termination_by n - i

/-- Net effect of the left-to-right shift loop: every index in `[i, n)`
receives the original content of its right neighbour; all other indices
are untouched. -/
theorem shiftLoop_getD (cs : List ClientState) (i n : Nat) (hn : n ≤ cs.length)
    (j : Nat) :
    (shiftLoop cs i n).getD j emptyClient =
      if i ≤ j ∧ j < n then cs.getD (j + 1) emptyClient else cs.getD j emptyClient := by
  unfold shiftLoop
  split
  · case isTrue hin =>
    rw [shiftLoop_getD (cs.set i (cs.getD (i + 1) emptyClient)) (i + 1) n
      (by simpa using hn) j]
    by_cases hij : i = j
    · subst hij
      have hnot : ¬ (i + 1 ≤ i ∧ i < n) := by omega
      rw [if_neg hnot, if_pos ⟨Nat.le_refl i, hin⟩]
      exact getD_set_self cs i _ emptyClient (Nat.lt_of_lt_of_le hin hn)
    · by_cases hj : i + 1 ≤ j ∧ j < n
      · rw [if_pos hj, if_pos ⟨by omega, hj.2⟩]
        exact getD_set_of_ne cs i (j + 1) _ emptyClient (by omega)
      · have hnot2 : ¬ (i ≤ j ∧ j < n) := by omega
        rw [if_neg hj, if_neg hnot2]
        exact getD_set_of_ne cs i j _ emptyClient hij
  · case isFalse hin =>
    have : ¬ (i ≤ j ∧ j < n) := by omega
    rw [if_neg this]
termination_by n - i

/-- The scan `findUserInList` returns the not-found sentinel exactly when no slot in
the scanned prefix matches the queried pair under the bounded compares. -/
theorem findUserInList_eq_notFound (clientIP clientUserID : List Char) (sd : SharedData) :
    findUserInList clientIP clientUserID sd = ENTRY_NOT_FOUND_OR_NULL ↔
      ∀ i < sd.numClients,
        ¬ (strncmpEq (cgetD sd i).clientIP clientIP CLIENT_IP_LENGTH = true ∧
           strncmpEq (cgetD sd i).clientUserID clientUserID CLIENT_USERID_LENGTH = true) := by
  unfold findUserInList
  rcases hfind : (List.range sd.numClients).find? (fun i =>
      strncmpEq (cgetD sd i).clientIP clientIP CLIENT_IP_LENGTH &&
      strncmpEq (cgetD sd i).clientUserID clientUserID CLIENT_USERID_LENGTH) with _ | k
  · simp only []
    constructor
    · intro _ i hi hmatch
      have := List.find?_eq_none.mp hfind i (List.mem_range.mpr hi)
      simp only [Bool.and_eq_true] at this
      exact this ⟨hmatch.1, hmatch.2⟩
    · intro _
      trivial
  · simp only []
    constructor
    · intro hk
      have : (0 : Int) ≤ (k : Int) := Int.ofNat_nonneg k
      rw [hk] at this
      exact absurd this (by norm_num [ENTRY_NOT_FOUND_OR_NULL])
    · intro h
      have hmem := List.find?_some hfind
      have hin := List.mem_range.mp (List.mem_of_find?_eq_some hfind)
      simp only [Bool.and_eq_true] at hmem
      exact absurd ⟨hmem.1, hmem.2⟩ (h k hin)

/-- The scan `findThreadIDInList` returns the not-found sentinel exactly when no slot
in the scanned prefix carries the thread id. -/
theorem findThreadIDInList_eq_notFound (threadID : Nat) (sd : SharedData) :
    findThreadIDInList threadID sd = ENTRY_NOT_FOUND_OR_NULL ↔
      ∀ i < sd.numClients, (cgetD sd i).threadID ≠ threadID := by
  unfold findThreadIDInList
  rcases hfind : (List.range sd.numClients).find? (fun i => (cgetD sd i).threadID == threadID)
    with _ | k
  · simp only []
    constructor
    · intro _ i hi hmatch
      have := List.find?_eq_none.mp hfind i (List.mem_range.mpr hi)
      simp only [beq_iff_eq] at this
      exact this hmatch
    · intro _
      trivial
  · simp only []
    constructor
    · intro hk
      have : (0 : Int) ≤ (k : Int) := Int.ofNat_nonneg k
      rw [hk] at this
      exact absurd this (by norm_num [ENTRY_NOT_FOUND_OR_NULL])
    · intro h
      have hmem := List.find?_some hfind
      have hin := List.mem_range.mp (List.mem_of_find?_eq_some hfind)
      simp only [beq_iff_eq] at hmem
      exact absurd hmem (h k hin)

/-- Branch behaviour of `addToList`: append below capacity, reject and
leave the state untouched at capacity. -/
theorem addToList_spec (threadID : Nat) (clientIP clientUserID : List Char)
    (clientSocket : Int) (sd : SharedData) :
    (MAX_CLIENTS ≤ sd.numClients →
      addToList threadID clientIP clientUserID clientSocket sd = (TOO_MANY_CLIENTS, sd)) ∧
    (sd.numClients < MAX_CLIENTS →
      addToList threadID clientIP clientUserID clientSocket sd =
        (SUCCESS,
          { numClients := sd.numClients + 1,
            connectedClients := sd.connectedClients.set sd.numClients
              { threadID := threadID,
                clientIP := clientIP.take CLIENT_IP_LENGTH,
                clientUserID := clientUserID.take CLIENT_USERID_LENGTH,
                clientSocket := clientSocket } })) := by
  constructor
  · intro h
    unfold addToList
    rw [if_neg (by omega)]
  · intro h
    unfold addToList
    rw [if_pos h]

/-- Full characterization of `removeFromList` at a valid index: return
value, new count, preserved length, untouched prefix, one-slot left shift,
and cleared trailing slot. -/
theorem removeFromList_spec (sd : SharedData) (i : Nat)
    (hlen : sd.connectedClients.length = MAX_CLIENTS)
    (hn : sd.numClients ≤ MAX_CLIENTS) (hi : i < sd.numClients) :
    (removeFromList (i : Int) sd).1 = (i : Int) ∧
    (removeFromList (i : Int) sd).2.numClients = sd.numClients - 1 ∧
    (removeFromList (i : Int) sd).2.connectedClients.length = MAX_CLIENTS ∧
    (∀ j, j < i → cgetD (removeFromList (i : Int) sd).2 j = cgetD sd j) ∧
    (∀ j, i ≤ j → j < sd.numClients - 1 →
      cgetD (removeFromList (i : Int) sd).2 j = cgetD sd (j + 1)) ∧
    cgetD (removeFromList (i : Int) sd).2 (sd.numClients - 1) = emptyClient := by
  have hne : (i : Int) ≠ ENTRY_NOT_FOUND_OR_NULL := by
    unfold ENTRY_NOT_FOUND_OR_NULL
    omega
  have hclean : sd.numClients - 1 < MAX_CLIENTS := by
    unfold MAX_CLIENTS at hn ⊢
    omega
  have hsub : sd.numClients - 1 ≤ sd.connectedClients.length := by omega
  have hshiftlen : (shiftLoop sd.connectedClients i (sd.numClients - 1)).length =
      sd.connectedClients.length := shiftLoop_length _ _ _
  unfold removeFromList
  rw [if_pos hne]
  simp only [if_pos hclean, Int.toNat_ofNat]
  refine ⟨by trivial, by trivial, ?_, ?_, ?_, ?_⟩
  · simp only [List.length_set]
    omega
  · intro j hj
    unfold cgetD
    simp only []
    rw [getD_set_of_ne _ _ _ _ _ (by omega),
      shiftLoop_getD sd.connectedClients i (sd.numClients - 1) hsub j,
      if_neg (by omega)]
  · intro j hij hjn
    unfold cgetD
    simp only []
    rw [getD_set_of_ne _ _ _ _ _ (by omega),
      shiftLoop_getD sd.connectedClients i (sd.numClients - 1) hsub j,
      if_pos ⟨hij, hjn⟩]
  · unfold cgetD
    simp only []
    rw [getD_set_self]
    omega

/-! ### Concrete demonstration states -/

/-- A distinct occupied slot for building concrete registry states. -/
def demoEntry (c : Char) (k : Nat) : ClientState :=
  { threadID := k, clientIP := "9.9.9.9".data, clientUserID := [c], clientSocket := (k : Int) }

/-- A registry at full capacity: ten occupied slots with pairwise distinct
user ids and thread ids. -/
def sdFullDemo : SharedData :=
  { numClients := 10,
    connectedClients :=
      [demoEntry '0' 1, demoEntry '1' 2, demoEntry '2' 3, demoEntry '3' 4,
       demoEntry '4' 5, demoEntry '5' 6, demoEntry '6' 7, demoEntry '7' 8,
       demoEntry '8' 9, demoEntry '9' 10] }

/-- A registry with three occupied slots. -/
def sd3Demo : SharedData :=
  { numClients := 3,
    connectedClients :=
      [demoEntry 'a' 1, demoEntry 'b' 2, demoEntry 'c' 3] ++
        List.replicate 7 emptyClient }

/-! ### Claim theorems -/

/-- C4: for every registry state whose count equals capacity (10),
`addToList` fails with `TOO_MANY_CLIENTS` and performs no mutation; for
every state with count below capacity it appends the new entry at index
`count` and increments `count` by one. -/
theorem addToList_capacity (threadID : Nat) (clientIP clientUserID : List Char)
    (clientSocket : Int) (sd : SharedData) :
    (sd.numClients = MAX_CLIENTS →
      addToList threadID clientIP clientUserID clientSocket sd = (TOO_MANY_CLIENTS, sd)) ∧
    (sd.numClients < MAX_CLIENTS →
      addToList threadID clientIP clientUserID clientSocket sd =
        (SUCCESS,
          { numClients := sd.numClients + 1,
            connectedClients := sd.connectedClients.set sd.numClients
              { threadID := threadID,
                clientIP := clientIP.take CLIENT_IP_LENGTH,
                clientUserID := clientUserID.take CLIENT_USERID_LENGTH,
                clientSocket := clientSocket } })) := by
  exact ⟨fun h => (addToList_spec threadID clientIP clientUserID clientSocket sd).1
      (Nat.le_of_eq h.symm),
    (addToList_spec threadID clientIP clientUserID clientSocket sd).2⟩

theorem addToList_capacity_witness :
    sdFullDemo.numClients = MAX_CLIENTS ∧
      addToList 11 "1.2.3.4".data "zz".data 3 sdFullDemo = (TOO_MANY_CLIENTS, sdFullDemo) :=
  ⟨by decide,
   (addToList_capacity 11 "1.2.3.4".data "zz".data 3 sdFullDemo).1 (by decide)⟩

/-- C5: removing a valid index `i < numClients` decrements the count,
shifts every entry formerly at `j` with `i < j < numClients` down to
`j - 1` (a stable shift preserving relative order), leaves the entries
below `i` unchanged, and clears the vacated trailing slot. -/
theorem removeFromList_shifts (sd : SharedData) (i : Nat)
    (hlen : sd.connectedClients.length = MAX_CLIENTS)
    (hn : sd.numClients ≤ MAX_CLIENTS) (hi : i < sd.numClients) :
    (removeFromList (i : Int) sd).1 = (i : Int) ∧
    (removeFromList (i : Int) sd).2.numClients = sd.numClients - 1 ∧
    (∀ j, j < i → cgetD (removeFromList (i : Int) sd).2 j = cgetD sd j) ∧
    (∀ j, i ≤ j → j < sd.numClients - 1 →
      cgetD (removeFromList (i : Int) sd).2 j = cgetD sd (j + 1)) ∧
    cgetD (removeFromList (i : Int) sd).2 (sd.numClients - 1) = emptyClient := by
  obtain ⟨h1, h2, _, h4, h5, h6⟩ := removeFromList_spec sd i hlen hn hi
  exact ⟨h1, h2, h4, h5, h6⟩

theorem removeFromList_shifts_witness :
    sd3Demo.connectedClients.length = MAX_CLIENTS ∧ sd3Demo.numClients ≤ MAX_CLIENTS ∧
      1 < sd3Demo.numClients ∧
      (removeFromList 1 sd3Demo).2.numClients = 2 ∧
      cgetD (removeFromList 1 sd3Demo).2 0 = cgetD sd3Demo 0 ∧
      cgetD (removeFromList 1 sd3Demo).2 1 = cgetD sd3Demo 2 ∧
      cgetD (removeFromList 1 sd3Demo).2 2 = emptyClient :=
  ⟨by decide, by decide, by decide,
   (removeFromList_shifts sd3Demo 1 (by decide) (by decide) (by decide)).2.1,
   (removeFromList_shifts sd3Demo 1 (by decide) (by decide) (by decide)).2.2.1 0 (by decide),
   (removeFromList_shifts sd3Demo 1 (by decide) (by decide) (by decide)).2.2.2.1 1
     (by decide) (by decide),
   (removeFromList_shifts sd3Demo 1 (by decide) (by decide) (by decide)).2.2.2.2⟩

/-- C6: when `findThreadIDInList` reports the entry as already absent
(sentinel -1), the removal attempt is a no-op: it returns the sentinel and
leaves the count and every slot unchanged. -/
theorem removeFromList_idempotent (threadID : Nat) (sd : SharedData)
    (h : findThreadIDInList threadID sd = ENTRY_NOT_FOUND_OR_NULL) :
    removeFromList (findThreadIDInList threadID sd) sd = (ENTRY_NOT_FOUND_OR_NULL, sd) := by
  rw [h]
  unfold removeFromList
  rw [if_neg (by simp)]

theorem removeFromList_idempotent_witness :
    findThreadIDInList 77 sd3Demo = ENTRY_NOT_FOUND_OR_NULL ∧
      removeFromList (findThreadIDInList 77 sd3Demo) sd3Demo =
        (ENTRY_NOT_FOUND_OR_NULL, sd3Demo) :=
  ⟨by decide, removeFromList_idempotent 77 sd3Demo (by decide)⟩

theorem failed_ne_success : MESSAGE_PROCESS_FAILED ≠ MESSAGE_PROCESS_SUCCESS := by decide

theorem regfailed_ne_success : REGISTRATION_FAILED ≠ MESSAGE_PROCESS_SUCCESS := by decide

/-- C1 (counterexample): a registration message whose decoded user id is
empty but whose text is exactly the registration token, against the empty
registry: the token matches, no entry shares the (address, userID) pair,
and the count is below capacity, yet the client is not added (the count
stays 0) and the attempt fails — refuting the claimed equivalence, which
omits the userID-validity guard. -/
theorem processRegistration_emptyUserID_counterexample :
    strncmpEq ({ clientUserID := [], message := SERVER_REGISTRATION_MSG : ClientMessage }.message)
        SERVER_REGISTRATION_MSG (SERVER_REGISTRATION_MSG.length + 1) = true ∧
    findUserInList "1.2.3.4".data [] initialSharedData = ENTRY_NOT_FOUND_OR_NULL ∧
    initialSharedData.numClients < MAX_CLIENTS ∧
    (processRegistration 1 7 "1.2.3.4".data
        { clientUserID := [], message := SERVER_REGISTRATION_MSG } 3 initialSharedData).2.2.numClients
      = 0 ∧
    (processRegistration 1 7 "1.2.3.4".data
        { clientUserID := [], message := SERVER_REGISTRATION_MSG } 3 initialSharedData).1
      ≠ MESSAGE_PROCESS_SUCCESS := by
  refine ⟨by decide, by decide, by decide, by decide, by decide⟩

/-- C1 (amended): for every message processed in `AwaitingRegistration`,
the client is added (entry appended at index `count`) and answered with the
single `>>success<<` reply if and only if the read succeeded, the decoded
userID is non-empty and not all whitespace, the message text exactly equals
`>>hello<<`, no scanned entry matches the (address, userID) pair, and the
count is below capacity; in every other case the attempt fails and the
registry is unchanged. -/
theorem processRegistration_spec (numBytesRead : Int) (threadID : Nat)
    (clientIP : List Char) (cm : ClientMessage) (clientSocket : Int) (sd : SharedData) :
    (((processRegistration numBytesRead threadID clientIP cm clientSocket sd).1 =
          MESSAGE_PROCESS_SUCCESS ∧
      (processRegistration numBytesRead threadID clientIP cm clientSocket sd).2.2 =
        { numClients := sd.numClients + 1,
          connectedClients := sd.connectedClients.set sd.numClients
            { threadID := threadID,
              clientIP := clientIP.take CLIENT_IP_LENGTH,
              clientUserID := cm.clientUserID.take CLIENT_USERID_LENGTH,
              clientSocket := clientSocket } } ∧
      (processRegistration numBytesRead threadID clientIP cm clientSocket sd).2.1 =
        [sendServerMessage SERVER_REGISTRATION_SUCCESS_MSG]) ↔
     (numBytesRead ≠ -1 ∧ cm.clientUserID ≠ [] ∧ isWhitespace cm.clientUserID = false ∧
      cm.message = SERVER_REGISTRATION_MSG ∧
      findUserInList clientIP cm.clientUserID sd = ENTRY_NOT_FOUND_OR_NULL ∧
      sd.numClients < MAX_CLIENTS)) ∧
    (¬ (numBytesRead ≠ -1 ∧ cm.clientUserID ≠ [] ∧ isWhitespace cm.clientUserID = false ∧
        cm.message = SERVER_REGISTRATION_MSG ∧
        findUserInList clientIP cm.clientUserID sd = ENTRY_NOT_FOUND_OR_NULL ∧
        sd.numClients < MAX_CLIENTS) →
      (processRegistration numBytesRead threadID clientIP cm clientSocket sd).2.2 = sd ∧
      (processRegistration numBytesRead threadID clientIP cm clientSocket sd).1 ≠
        MESSAGE_PROCESS_SUCCESS) := by
  unfold processRegistration
  by_cases hguard : numBytesRead = -1 ∨ cm.clientUserID.length = 0 ∨
      isWhitespace cm.clientUserID = true
  · rw [if_pos hguard]
    refine ⟨⟨fun h => absurd h.1 failed_ne_success, fun h => ?_⟩,
      fun _ => ⟨rfl, failed_ne_success⟩⟩
    rcases hguard with hg | hg | hg
    · exact absurd hg h.1
    · exact absurd (List.length_eq_zero.mp hg) h.2.1
    · rw [h.2.2.1] at hg
      exact absurd hg (by decide)
  · rw [if_neg hguard]
    push_neg at hguard
    obtain ⟨hread, hlen, hwhite⟩ := hguard
    by_cases hcond : strncmpEq cm.message SERVER_REGISTRATION_MSG
        (SERVER_REGISTRATION_MSG.length + 1) = true ∧
        findUserInList clientIP cm.clientUserID sd = ENTRY_NOT_FOUND_OR_NULL
    · rw [if_pos hcond]
      by_cases hcap : sd.numClients < MAX_CLIENTS
      · have hadd : addToList threadID clientIP cm.clientUserID clientSocket sd =
            (SUCCESS,
              { numClients := sd.numClients + 1,
                connectedClients := sd.connectedClients.set sd.numClients
                  { threadID := threadID,
                    clientIP := clientIP.take CLIENT_IP_LENGTH,
                    clientUserID := cm.clientUserID.take CLIENT_USERID_LENGTH,
                    clientSocket := clientSocket } }) :=
          (addToList_spec threadID clientIP cm.clientUserID clientSocket sd).2 hcap
        rw [hadd]
        have hne : SUCCESS ≠ TOO_MANY_CLIENTS := by decide
        rw [if_neg hne]
        refine ⟨⟨fun _ => ?_, fun _ => ⟨rfl, rfl, rfl⟩⟩, fun hnot => ?_⟩
        · exact ⟨hread, fun he => hlen (by rw [he]; rfl),
            Bool.not_eq_true _ ▸ Bool.of_not_eq_true hwhite,
            (strncmpEq_sizeof cm.message SERVER_REGISTRATION_MSG).mp hcond.1,
            hcond.2, hcap⟩
        · exact absurd ⟨hread, fun he => hlen (by rw [he]; rfl),
            Bool.not_eq_true _ ▸ Bool.of_not_eq_true hwhite,
            (strncmpEq_sizeof cm.message SERVER_REGISTRATION_MSG).mp hcond.1,
            hcond.2, hcap⟩ hnot
      · have hfull : addToList threadID clientIP cm.clientUserID clientSocket sd =
            (TOO_MANY_CLIENTS, sd) := by
          unfold addToList
          rw [if_neg hcap]
        rw [hfull]
        rw [if_pos rfl]
        refine ⟨⟨fun h => absurd h.1 failed_ne_success, fun h => absurd h.2.2.2.2.2 hcap⟩,
          fun _ => ⟨rfl, failed_ne_success⟩⟩
    · rw [if_neg hcond]
      refine ⟨⟨fun h => absurd h.1 regfailed_ne_success, fun h => ?_⟩,
        fun _ => ⟨rfl, regfailed_ne_success⟩⟩
      exact absurd ⟨(strncmpEq_sizeof cm.message SERVER_REGISTRATION_MSG).mpr h.2.2.2.1,
        h.2.2.2.2.1⟩ hcond

theorem processRegistration_spec_witness :
    (processRegistration 1 7 "1.2.3.4".data
        { clientUserID := "ab".data, message := SERVER_REGISTRATION_MSG } 3
        initialSharedData).1 = MESSAGE_PROCESS_SUCCESS ∧
    (processRegistration 1 7 "1.2.3.4".data
        { clientUserID := "ab".data, message := SERVER_REGISTRATION_MSG } 3
        initialSharedData).2.2.numClients = 1 := by
  have h := (processRegistration_spec 1 7 "1.2.3.4".data
      { clientUserID := "ab".data, message := SERVER_REGISTRATION_MSG } 3
      initialSharedData).1.mpr
    ⟨by decide, by decide, by decide, rfl, by decide, by decide⟩
  exact ⟨h.1, by rw [h.2.1]; rfl⟩

/-- C2 (counterexample): a valid registration attempt against a full
registry (token correct, pair fresh, ten clients connected) is a
registration failure, yet the reply list is empty — the `>>failed<<` reply
Broadcast is never sent on the capacity path. -/
theorem registrationFull_noReply_counterexample :
    (processRegistration 1 11 "1.2.3.4".data
        { clientUserID := "zz".data, message := SERVER_REGISTRATION_MSG } 3 sdFullDemo).1 ≠
      MESSAGE_PROCESS_SUCCESS ∧
    (processRegistration 1 11 "1.2.3.4".data
        { clientUserID := "zz".data, message := SERVER_REGISTRATION_MSG } 3 sdFullDemo).2.1 =
      [] ∧
    ([] : List Broadcast) ≠ [sendServerMessage SERVER_REGISTRATION_FAIL_MSG] := by
  refine ⟨by decide, by decide, by decide⟩

/-- C2 (amended): every registration failure other than registry-full —
read failure, empty or all-whitespace userID, bad token, duplicate
(address, userID) — is answered with exactly one reply Broadcast carrying
`>>failed<<` with empty origin fields, after which the handler drops the
connection with no retry; a registry-full failure also drops the
connection but sends no reply at all. -/
theorem registrationFailure_replies (numBytesRead : Int) (threadID : Nat)
    (clientIP : List Char) (cm : ClientMessage) (clientSocket : Int) (sd : SharedData) :
    ((numBytesRead = -1 ∨ cm.clientUserID.length = 0 ∨ isWhitespace cm.clientUserID = true) →
      (processRegistration numBytesRead threadID clientIP cm clientSocket sd).2.1 =
        [sendServerMessage SERVER_REGISTRATION_FAIL_MSG] ∧
      handlerDropsAfterRegistration
        (processRegistration numBytesRead threadID clientIP cm clientSocket sd).1 = true) ∧
    (¬ (numBytesRead = -1 ∨ cm.clientUserID.length = 0 ∨ isWhitespace cm.clientUserID = true) →
      ¬ (cm.message = SERVER_REGISTRATION_MSG ∧
          findUserInList clientIP cm.clientUserID sd = ENTRY_NOT_FOUND_OR_NULL) →
      (processRegistration numBytesRead threadID clientIP cm clientSocket sd).2.1 =
        [sendServerMessage SERVER_REGISTRATION_FAIL_MSG] ∧
      handlerDropsAfterRegistration
        (processRegistration numBytesRead threadID clientIP cm clientSocket sd).1 = true) ∧
    (¬ (numBytesRead = -1 ∨ cm.clientUserID.length = 0 ∨ isWhitespace cm.clientUserID = true) →
      cm.message = SERVER_REGISTRATION_MSG →
      findUserInList clientIP cm.clientUserID sd = ENTRY_NOT_FOUND_OR_NULL →
      ¬ sd.numClients < MAX_CLIENTS →
      (processRegistration numBytesRead threadID clientIP cm clientSocket sd).2.1 = [] ∧
      handlerDropsAfterRegistration
        (processRegistration numBytesRead threadID clientIP cm clientSocket sd).1 = true) ∧
    (sendServerMessage SERVER_REGISTRATION_FAIL_MSG).clientIP = [] ∧
    (sendServerMessage SERVER_REGISTRATION_FAIL_MSG).clientUserID = [] := by
  have hts := strncmpEq_sizeof cm.message SERVER_REGISTRATION_MSG
  unfold processRegistration
  refine ⟨?_, ?_, ?_, rfl, rfl⟩
  · intro hguard
    rw [if_pos hguard]
    exact ⟨rfl, rfl⟩
  · intro hguard hntok
    rw [if_neg hguard]
    have hcond : ¬ (strncmpEq cm.message SERVER_REGISTRATION_MSG
        (SERVER_REGISTRATION_MSG.length + 1) = true ∧
        findUserInList clientIP cm.clientUserID sd = ENTRY_NOT_FOUND_OR_NULL) := by
      intro hc
      exact hntok ⟨hts.mp hc.1, hc.2⟩
    rw [if_neg hcond]
    exact ⟨rfl, rfl⟩
  · intro hguard htok hfind hcap
    rw [if_neg hguard, if_pos ⟨hts.mpr htok, hfind⟩]
    have hfull : addToList threadID clientIP cm.clientUserID clientSocket sd =
        (TOO_MANY_CLIENTS, sd) := by
      unfold addToList
      rw [if_neg hcap]
    rw [hfull, if_pos rfl]
    exact ⟨rfl, rfl⟩

theorem registrationFailure_replies_witness :
    (processRegistration (-1) 7 "1.2.3.4".data
        { clientUserID := "ab".data, message := SERVER_REGISTRATION_MSG } 3
        initialSharedData).2.1 = [sendServerMessage SERVER_REGISTRATION_FAIL_MSG] ∧
    handlerDropsAfterRegistration
      (processRegistration (-1) 7 "1.2.3.4".data
        { clientUserID := "ab".data, message := SERVER_REGISTRATION_MSG } 3
        initialSharedData).1 = true :=
  (registrationFailure_replies (-1) 7 "1.2.3.4".data
      { clientUserID := "ab".data, message := SERVER_REGISTRATION_MSG } 3
      initialSharedData).1 (Or.inl rfl)

/-! ### Registry uniqueness invariant (C3) -/

/-- Two slots hold the same registration pair: equal stored IP and equal
stored user id. -/
def samePair (a b : ClientState) : Prop :=
  a.clientIP = b.clientIP ∧ a.clientUserID = b.clientUserID

/-- The registry well-formedness invariant maintained by the server: the
slot array keeps its fixed length, the count stays within capacity, every
occupied slot stores strings within their buffer bounds (as `addToList`
truncates them), and no two occupied slots share the (address, userID)
pair. -/
def RegistryInv (sd : SharedData) : Prop :=
  sd.connectedClients.length = MAX_CLIENTS ∧
  sd.numClients ≤ MAX_CLIENTS ∧
  (∀ i, i < sd.numClients →
    (cgetD sd i).clientIP.length ≤ CLIENT_IP_LENGTH ∧
    (cgetD sd i).clientUserID.length ≤ CLIENT_USERID_LENGTH) ∧
  (∀ i j, i < j → j < sd.numClients → ¬ samePair (cgetD sd i) (cgetD sd j))

/-- The registry states reachable from the freshly initialized shared
memory by the two mutations the server performs under the registry mutex:
a registration attempt (the find-then-add critical section of
`processMessage`) and a handler removal (`findThreadIDInList` followed by
`removeFromList`, as in the quit path and the handler cleanup path). -/
inductive Reachable : SharedData → Prop
  | init : Reachable initialSharedData
  | register (sd : SharedData) (numBytesRead : Int) (threadID : Nat)
      (clientIP : List Char) (cm : ClientMessage) (clientSocket : Int) :
      Reachable sd →
      Reachable (processRegistration numBytesRead threadID clientIP cm clientSocket sd).2.2
  | removeClient (sd : SharedData) (threadID : Nat) :
      Reachable sd →
      Reachable (removeFromList (findThreadIDInList threadID sd) sd).2

theorem findThreadIDInList_cases (threadID : Nat) (sd : SharedData) :
    findThreadIDInList threadID sd = ENTRY_NOT_FOUND_OR_NULL ∨
      ∃ k : Nat, findThreadIDInList threadID sd = (k : Int) ∧ k < sd.numClients := by
  unfold findThreadIDInList
  rcases hfind : (List.range sd.numClients).find?
      (fun i => (cgetD sd i).threadID == threadID) with _ | k
  · exact Or.inl rfl
  · exact Or.inr ⟨k, rfl, List.mem_range.mp (List.mem_of_find?_eq_some hfind)⟩

theorem registryInv_initial : RegistryInv initialSharedData := by
  refine ⟨by decide, by decide, ?_, ?_⟩
  · intro i hi
    simp [initialSharedData] at hi
  · intro i j hij hj
    simp [initialSharedData] at hj

theorem registryInv_add (threadID : Nat) (clientIP clientUserID : List Char)
    (clientSocket : Int) (sd : SharedData) (hinv : RegistryInv sd)
    (hfind : findUserInList clientIP clientUserID sd = ENTRY_NOT_FOUND_OR_NULL) :
    RegistryInv (addToList threadID clientIP clientUserID clientSocket sd).2 := by
  obtain ⟨hlen, hcount, hbounds, hpair⟩ := hinv
  by_cases hcap : sd.numClients < MAX_CLIENTS
  · rw [(addToList_spec threadID clientIP clientUserID clientSocket sd).2 hcap]
    have hnlt : sd.numClients < sd.connectedClients.length := by omega
    refine ⟨?_, ?_, ?_, ?_⟩
    · simpa using hlen
    · simpa using hcap
    · intro i hi
      by_cases hien : i = sd.numClients
      · subst hien
        unfold cgetD
        simp only []
        rw [getD_set_self _ _ _ _ hnlt]
        constructor
        · simp [List.length_take]
        · simp [List.length_take]
      · have hilt : i < sd.numClients := by
          simp only [] at hi
          omega
        unfold cgetD
        simp only []
        rw [getD_set_of_ne _ _ _ _ _ (fun he => hien he.symm)]
        exact hbounds i hilt
    · intro i j hij hj
      by_cases hjn : j = sd.numClients
      · subst hjn
        have hilt : i < sd.numClients := hij
        unfold cgetD
        simp only []
        rw [getD_set_self _ _ _ _ hnlt, getD_set_of_ne _ _ _ _ _ (by omega)]
        intro hsp
        have hnomatch := (findUserInList_eq_notFound clientIP clientUserID sd).mp hfind
          i hilt
        refine hnomatch ⟨?_, ?_⟩
        · exact (strncmpEq_stored (cgetD sd i).clientIP clientIP CLIENT_IP_LENGTH
            (hbounds i hilt).1).mpr hsp.1
        · exact (strncmpEq_stored (cgetD sd i).clientUserID clientUserID
            CLIENT_USERID_LENGTH (hbounds i hilt).2).mpr hsp.2
      · have hjlt : j < sd.numClients := by
          simp only [] at hj
          omega
        unfold cgetD
        simp only []
        rw [getD_set_of_ne _ _ _ _ _ (by omega), getD_set_of_ne _ _ _ _ _ (by omega)]
        exact hpair i j hij hjlt
  · rw [(addToList_spec threadID clientIP clientUserID clientSocket sd).1 (by omega)]
    exact ⟨hlen, hcount, hbounds, hpair⟩

theorem registryInv_processRegistration (numBytesRead : Int) (threadID : Nat)
    (clientIP : List Char) (cm : ClientMessage) (clientSocket : Int)
    (sd : SharedData) (hinv : RegistryInv sd) :
    RegistryInv (processRegistration numBytesRead threadID clientIP cm clientSocket sd).2.2 := by
  unfold processRegistration
  by_cases hguard : numBytesRead = -1 ∨ cm.clientUserID.length = 0 ∨
      isWhitespace cm.clientUserID = true
  · rw [if_pos hguard]
    exact hinv
  · rw [if_neg hguard]
    by_cases hcond : strncmpEq cm.message SERVER_REGISTRATION_MSG
        (SERVER_REGISTRATION_MSG.length + 1) = true ∧
        findUserInList clientIP cm.clientUserID sd = ENTRY_NOT_FOUND_OR_NULL
    · rw [if_pos hcond]
      by_cases hfull : (addToList threadID clientIP cm.clientUserID clientSocket sd).1 =
          TOO_MANY_CLIENTS
      · rw [if_pos hfull]
        exact registryInv_add threadID clientIP cm.clientUserID clientSocket sd hinv hcond.2
      · rw [if_neg hfull]
        exact registryInv_add threadID clientIP cm.clientUserID clientSocket sd hinv hcond.2
    · rw [if_neg hcond]
      exact hinv

theorem registryInv_remove (threadID : Nat) (sd : SharedData) (hinv : RegistryInv sd) :
    RegistryInv (removeFromList (findThreadIDInList threadID sd) sd).2 := by
  obtain ⟨hlen, hcount, hbounds, hpair⟩ := hinv
  rcases findThreadIDInList_cases threadID sd with hnone | ⟨k, hk, hklt⟩
  · rw [hnone]
    unfold removeFromList
    rw [if_neg (by simp)]
    exact ⟨hlen, hcount, hbounds, hpair⟩
  · rw [hk]
    obtain ⟨_, hcnt, hlen2, hlow, hhigh, _⟩ :=
      removeFromList_spec sd k hlen hcount hklt
    refine ⟨hlen2, by omega, ?_, ?_⟩
    · intro i hi
      rw [hcnt] at hi
      by_cases hik : i < k
      · rw [hlow i hik]
        exact hbounds i (by omega)
      · rw [hhigh i (by omega) hi]
        exact hbounds (i + 1) (by omega)
    · intro i j hij hj
      rw [hcnt] at hj
      by_cases hjk : j < k
      · rw [hlow i (by omega), hlow j hjk]
        exact hpair i j hij (by omega)
      · by_cases hik : i < k
        · rw [hlow i hik, hhigh j (by omega) hj]
          exact hpair i (j + 1) (by omega) (by omega)
        · rw [hhigh i (by omega) (by omega), hhigh j (by omega) hj]
          exact hpair (i + 1) (j + 1) (by omega) (by omega)

theorem registryInv_reachable (sd : SharedData) (h : Reachable sd) : RegistryInv sd := by
  induction h with
  | init => exact registryInv_initial
  | register sd2 numBytesRead threadID clientIP cm clientSocket hr ih =>
    exact registryInv_processRegistration numBytesRead threadID clientIP cm clientSocket sd2 ih
  | removeClient sd2 threadID hr ih =>
    exact registryInv_remove threadID sd2 ih

/-- C3: registry uniqueness invariant — in every reachable registry state
(starting from the empty registry, under any sequence of find-then-add
registrations and find-then-remove removals), no two entries among the
first `numClients` slots of `connectedClients` share the same
(clientIP, clientUserID) pair. -/
theorem registryUniqueness (sd : SharedData) (h : Reachable sd) :
    ∀ i j, i < j → j < sd.numClients → ¬ samePair (cgetD sd i) (cgetD sd j) :=
  (registryInv_reachable sd h).2.2.2

theorem registryUniqueness_witness :
    ¬ samePair
        (cgetD (processRegistration 1 8 "5.6.7.8".data
          { clientUserID := "cd".data, message := SERVER_REGISTRATION_MSG } 4
          (processRegistration 1 7 "1.2.3.4".data
            { clientUserID := "ab".data, message := SERVER_REGISTRATION_MSG } 3
            initialSharedData).2.2).2.2 0)
        (cgetD (processRegistration 1 8 "5.6.7.8".data
          { clientUserID := "cd".data, message := SERVER_REGISTRATION_MSG } 4
          (processRegistration 1 7 "1.2.3.4".data
            { clientUserID := "ab".data, message := SERVER_REGISTRATION_MSG } 3
            initialSharedData).2.2).2.2 1) :=
  registryUniqueness _
    (Reachable.register _ 1 8 "5.6.7.8".data
      { clientUserID := "cd".data, message := SERVER_REGISTRATION_MSG } 4
      (Reachable.register _ 1 7 "1.2.3.4".data
        { clientUserID := "ab".data, message := SERVER_REGISTRATION_MSG } 3
        Reachable.init))
    0 1 (by decide) (by decide)

/-! ### Message splitting (C7) -/

theorem getD_eq_getElem_of_lt {α : Type} (l : List α) (n : Nat) (d : α)
    (h : n < l.length) : l.getD n d = l[n] := by
  simp [List.getD_eq_getElem?_getD, List.getElem?_eq_getElem h]

/-- The backward scan returns the largest whitespace index below the
bound, and `none` exactly when there is none. -/
theorem lastSpaceBelow_spec (input : List Char) (bound : Nat) :
    (lastSpaceBelow input bound = none →
      ∀ j, j < bound → isSpaceC (input.getD j (Char.ofNat 0)) = false) ∧
    (∀ i, lastSpaceBelow input bound = some i →
      i < bound ∧ isSpaceC (input.getD i (Char.ofNat 0)) = true ∧
      ∀ j, i < j → j < bound → isSpaceC (input.getD j (Char.ofNat 0)) = false) := by
  induction bound with
  | zero =>
    constructor
    · intro _ j hj
      omega
    · intro i hi
      simp [lastSpaceBelow] at hi
  | succ k ih =>
    constructor
    · intro hnone j hj
      unfold lastSpaceBelow at hnone
      by_cases hk : isSpaceC (input.getD k (Char.ofNat 0)) = true
      · rw [if_pos hk] at hnone
        exact absurd hnone (by simp)
      · rw [if_neg hk] at hnone
        by_cases hjk : j = k
        · subst hjk
          exact Bool.not_eq_true _ ▸ Bool.of_not_eq_true hk
        · exact ih.1 hnone j (by omega)
    · intro i hi
      unfold lastSpaceBelow at hi
      by_cases hk : isSpaceC (input.getD k (Char.ofNat 0)) = true
      · rw [if_pos hk] at hi
        have hik : i = k := by
          simpa using hi.symm
        subst hik
        exact ⟨by omega, hk, fun j hj1 hj2 => by omega⟩
      · rw [if_neg hk] at hi
        obtain ⟨h1, h2, h3⟩ := ih.2 i hi
        refine ⟨by omega, h2, fun j hj1 hj2 => ?_⟩
        by_cases hjk : j = k
        · subst hjk
          exact Bool.not_eq_true _ ▸ Bool.of_not_eq_true hk
        · exact h3 j hj1 (by omega)

/-- The whitespace-skip loop removes exactly a run of whitespace: the
suffix at the start position is that whitespace run followed by the suffix
at the final position. -/
theorem skipSpaces_split (input : List Char) (sp : Nat) :
    ∃ ws : List Char, ws.all isSpaceC = true ∧
      input.drop sp = ws ++ input.drop (skipSpaces input sp) ∧
      sp ≤ skipSpaces input sp := by
  unfold skipSpaces
  split
  · case isTrue h =>
    obtain ⟨ws, hall, heq, hle⟩ := skipSpaces_split input (sp + 1)
    refine ⟨input.getD sp (Char.ofNat 0) :: ws, ?_, ?_, by omega⟩
    · rw [List.all_cons, h.1, hall]
      rfl
    · have hhead := getD_eq_getElem_of_lt input sp (Char.ofNat 0) h.2
      rw [List.drop_eq_getElem_cons h.2, heq, List.cons_append, ← hhead]
  · case isFalse h =>
    exact ⟨[], rfl, by simp, Nat.le_refl sp⟩
termination_by input.length - sp

/-- The skip loop never advances past the end of the string (or does not
advance at all). -/
theorem skipSpaces_le (input : List Char) (sp : Nat) :
    skipSpaces input sp ≤ input.length ∨ skipSpaces input sp = sp := by
  unfold skipSpaces
  split
  · case isTrue h =>
    rcases skipSpaces_le input (sp + 1) with h1 | h1
    · exact Or.inl h1
    · exact Or.inl (by omega)
  · case isFalse h =>
    exact Or.inr rfl
termination_by input.length - sp

/-- A whitespace character at the current position (inside the string)
makes the skip loop advance. -/
theorem skipSpaces_advance (input : List Char) (sp : Nat)
    (h1 : isSpaceC (input.getD sp (Char.ofNat 0)) = true) (h2 : sp < input.length) :
    sp + 1 ≤ skipSpaces input sp := by
  have hstep : skipSpaces input sp = skipSpaces input (sp + 1) := by
    rw [skipSpaces]
    rw [if_pos ⟨h1, h2⟩]
  rw [hstep]
  obtain ⟨_, _, _, hle⟩ := skipSpaces_split input (sp + 1)
  exact hle

/-- Characterization of the split point chosen by `splitString`: the two
output buffers are a prefix and the whitespace-trimmed remaining suffix of
the input, cut either exactly at `maxSize` or at the last whitespace index
below `maxSize` when the input overflows and the remainder after that
whitespace satisfies the limit constraint `inputLen - i < maxSize - 1`. -/
theorem splitString_eq (input : List Char) (maxSize : Nat) :
    ∃ sp : Nat,
      (splitString input maxSize).1 = input.take sp ∧
      (splitString input maxSize).2 = input.drop (skipSpaces input sp) ∧
      sp ≤ maxSize ∧
      (sp = maxSize ∨
        (sp < maxSize ∧ isSpaceC (input.getD sp (Char.ofNat 0)) = true ∧
         maxSize < input.length ∧ input.length - sp < maxSize - 1 ∧
         ∀ j, sp < j → j < maxSize → isSpaceC (input.getD j (Char.ofNat 0)) = false)) := by
  simp only [splitString]
  by_cases hlong : input.length > maxSize
  · rw [if_pos hlong]
    rcases hfound : lastSpaceBelow input maxSize with _ | i
    · exact ⟨maxSize, rfl, rfl, Nat.le_refl maxSize, Or.inl rfl⟩
    · obtain ⟨hilt, hispace, hmax⟩ := (lastSpaceBelow_spec input maxSize).2 i hfound
      simp only []
      by_cases hrem : input.length - i ≥ maxSize - 1
      · rw [if_pos hrem]
        exact ⟨maxSize, rfl, rfl, Nat.le_refl maxSize, Or.inl rfl⟩
      · rw [if_neg hrem]
        exact ⟨i, rfl, rfl, by omega, Or.inr ⟨hilt, hispace, hlong, by omega, hmax⟩⟩
  · rw [if_neg hlong]
    exact ⟨maxSize, rfl, rfl, Nat.le_refl maxSize, Or.inl rfl⟩

/-- C7: for every inbound text within the 80-character inbound limit,
`splitString` at the 40-character outbound limit yields two parts of
length at most 40; concatenating the parts with the boundary whitespace
removed at the split restored in between reconstructs the original; the
split point is the backward-scanned whitespace boundary when one exists
and the remainder fits the limit constraint, otherwise exactly the limit
position; and every Broadcast `sendMessageToQueue` builds from such a text
respects the outbound bound. -/
theorem splitString_roundTrip (input clientIP clientUserID : List Char)
    (hlen : input.length ≤ CLIENT_MESSAGE_LENGTH) :
    (splitString input BROADCAST_MESSAGE_LENGTH).1.length ≤ BROADCAST_MESSAGE_LENGTH ∧
    (splitString input BROADCAST_MESSAGE_LENGTH).2.length ≤ BROADCAST_MESSAGE_LENGTH ∧
    (∃ ws : List Char, ws.all isSpaceC = true ∧
      input = (splitString input BROADCAST_MESSAGE_LENGTH).1 ++ ws ++
        (splitString input BROADCAST_MESSAGE_LENGTH).2) ∧
    (∃ sp : Nat,
      (splitString input BROADCAST_MESSAGE_LENGTH).1 = input.take sp ∧
      (splitString input BROADCAST_MESSAGE_LENGTH).2 = input.drop (skipSpaces input sp) ∧
      (sp = BROADCAST_MESSAGE_LENGTH ∨
        (sp < BROADCAST_MESSAGE_LENGTH ∧
         isSpaceC (input.getD sp (Char.ofNat 0)) = true ∧
         input.length - sp < BROADCAST_MESSAGE_LENGTH - 1 ∧
         ∀ j, sp < j → j < BROADCAST_MESSAGE_LENGTH →
           isSpaceC (input.getD j (Char.ofNat 0)) = false))) ∧
    (∀ b ∈ sendMessageToQueue clientIP { clientUserID := clientUserID, message := input },
      b.message.length ≤ BROADCAST_MESSAGE_LENGTH) := by
  obtain ⟨sp, h1, h2, hsp, hchar⟩ := splitString_eq input BROADCAST_MESSAGE_LENGTH
  obtain ⟨ws, hall, hdrop, hle⟩ := skipSpaces_split input sp
  have hfirst : (splitString input BROADCAST_MESSAGE_LENGTH).1.length ≤
      BROADCAST_MESSAGE_LENGTH := by
    rw [h1, List.length_take]
    unfold BROADCAST_MESSAGE_LENGTH at hsp ⊢
    omega
  have hsecond : (splitString input BROADCAST_MESSAGE_LENGTH).2.length ≤
      BROADCAST_MESSAGE_LENGTH := by
    rw [h2, List.length_drop]
    rcases hchar with heq | ⟨hlt, hspace, hbig, hrem, _⟩
    · subst heq
      unfold BROADCAST_MESSAGE_LENGTH at hle ⊢
      unfold CLIENT_MESSAGE_LENGTH at hlen
      omega
    · have hadv := skipSpaces_advance input sp hspace (by omega)
      unfold BROADCAST_MESSAGE_LENGTH at hrem ⊢
      omega
  refine ⟨hfirst, hsecond, ⟨ws, hall, ?_⟩, ⟨sp, h1, h2, ?_⟩, ?_⟩
  · rw [h1, h2, List.append_assoc, ← hdrop, List.take_append_drop]
  · rcases hchar with heq | ⟨hlt, hspace, _, hrem, hmax⟩
    · exact Or.inl heq
    · exact Or.inr ⟨hlt, hspace, hrem, hmax⟩
  · intro b hb
    simp only [sendMessageToQueue] at hb
    by_cases hgt : (({ clientUserID := clientUserID, message := input } :
        ClientMessage)).message.length > BROADCAST_MESSAGE_LENGTH
    · rw [if_pos hgt] at hb
      rcases List.mem_cons.mp hb with hb1 | hb2
      · rw [hb1]
        exact hfirst
      · rw [List.mem_singleton.mp hb2]
        exact hsecond
    · rw [if_neg hgt] at hb
      rw [List.mem_singleton.mp hb]
      simp only [List.length_take]
      omega

theorem splitString_roundTrip_witness :
    ("hello world this is quite a long message yes".data.length ≤ CLIENT_MESSAGE_LENGTH) ∧
    (splitString "hello world this is quite a long message yes".data
        BROADCAST_MESSAGE_LENGTH).1.length ≤ BROADCAST_MESSAGE_LENGTH ∧
    (splitString "hello world this is quite a long message yes".data
        BROADCAST_MESSAGE_LENGTH).2.length ≤ BROADCAST_MESSAGE_LENGTH ∧
    (∃ ws : List Char, ws.all isSpaceC = true ∧
      "hello world this is quite a long message yes".data =
        (splitString "hello world this is quite a long message yes".data
          BROADCAST_MESSAGE_LENGTH).1 ++ ws ++
        (splitString "hello world this is quite a long message yes".data
          BROADCAST_MESSAGE_LENGTH).2) :=
  ⟨by decide,
   (splitString_roundTrip "hello world this is quite a long message yes".data
      "1.2.3.4".data "ab".data (by decide)).1,
   (splitString_roundTrip "hello world this is quite a long message yes".data
      "1.2.3.4".data "ab".data (by decide)).2.1,
   (splitString_roundTrip "hello world this is quite a long message yes".data
      "1.2.3.4".data "ab".data (by decide)).2.2.1⟩

/-! ### Broadcaster fan-out (C8) -/

theorem fanOutFrom_spec (sd : SharedData) (msg : List Char) (sendOk : Nat → Bool) (i : Nat) :
    (fanOutFrom sd msg sendOk i).length = sd.numClients - i ∧
    ∀ k, k < sd.numClients - i →
      (fanOutFrom sd msg sendOk i).getD k ((0 : Int), ([] : List Char), false) =
        ((cgetD sd (i + k)).clientSocket, msg, sendOk (i + k)) := by
  unfold fanOutFrom
  split
  · case isTrue h =>
    obtain ⟨ihlen, ihget⟩ := fanOutFrom_spec sd msg sendOk (i + 1)
    constructor
    · simp only [List.length_cons, ihlen]
      omega
    · intro k hk
      cases k with
      | zero =>
        simp only [List.getD_cons_zero, Nat.add_zero]
      | succ m =>
        have hrec := ihget m (by omega)
        simp only [List.getD_cons_succ, hrec]
        have harith : i + 1 + m = i + (m + 1) := by omega
        rw [harith]
  · case isFalse h =>
    refine ⟨by simp; omega, ?_⟩
    intro k hk
    omega

theorem fanOutFrom_oracle_independent (sd : SharedData) (msg : List Char)
    (sendOk1 sendOk2 : Nat → Bool) (i : Nat) :
    (fanOutFrom sd msg sendOk1 i).map (fun d => (d.1, d.2.1)) =
      (fanOutFrom sd msg sendOk2 i).map (fun d => (d.1, d.2.1)) := by
  unfold fanOutFrom
  split
  · case isTrue h =>
    simp only [List.map_cons]
    rw [fanOutFrom_oracle_independent sd msg sendOk1 sendOk2 (i + 1)]
  · case isFalse h =>
    rfl
termination_by sd.numClients - i

/-- C8: one delivery pass of the Broadcaster over a dequeued Broadcast
attempts exactly one send per registered entry, in registry order from
index 0 upward (so only the `numClients` entries registered at flush time
receive it, and no already-removed entry beyond that prefix does), every
recipient is handed the same encoded message, and the sequence of
attempted deliveries does not depend on which individual sends fail. -/
theorem chatBroadcasterFlush_spec (sd : SharedData) (msg : List Char) (sendOk : Nat → Bool) :
    (chatBroadcasterFlush sd msg sendOk).length = sd.numClients ∧
    (∀ k, k < sd.numClients →
      (chatBroadcasterFlush sd msg sendOk).getD k ((0 : Int), ([] : List Char), false) =
        ((cgetD sd k).clientSocket, msg, sendOk k)) ∧
    (∀ sendOk2 : Nat → Bool,
      (chatBroadcasterFlush sd msg sendOk).map (fun d => (d.1, d.2.1)) =
        (chatBroadcasterFlush sd msg sendOk2).map (fun d => (d.1, d.2.1))) := by
  obtain ⟨hlen, hget⟩ := fanOutFrom_spec sd msg sendOk 0
  refine ⟨by simpa using hlen, ?_, ?_⟩
  · intro k hk
    have := hget k (by omega)
    simpa using this
  · intro sendOk2
    exact fanOutFrom_oracle_independent sd msg sendOk sendOk2 0

theorem chatBroadcasterFlush_witness :
    (chatBroadcasterFlush sd3Demo ">>hi<<".data (fun _ => true)).length = 3 ∧
    (chatBroadcasterFlush sd3Demo ">>hi<<".data (fun _ => true)).getD 1
        ((0 : Int), ([] : List Char), false) =
      ((cgetD sd3Demo 1).clientSocket, ">>hi<<".data, true) :=
  ⟨(chatBroadcasterFlush_spec sd3Demo ">>hi<<".data (fun _ => true)).1,
   (chatBroadcasterFlush_spec sd3Demo ">>hi<<".data (fun _ => true)).2.1 1 (by decide)⟩

/-! ### Shutdown monitor (C9) -/

/-- C9: once the monitor is armed (it left the arming phase after
observing a positive client count), a poll that observes the count back at
0 makes the monitor clear `serverIsRunning` and close the listening
socket within that one poll; the accept loop of the listener, failing its
`accept` with the flag cleared, stops accepting and treats the failure as
the expected termination path rather than an error. -/
theorem monitorShutdown_spec (observed : Nat → Nat) (k : Nat) :
    ((monitorRun observed k).phase = MonPhase.arming → observed k > 0 →
      (monitorRun observed (k + 1)).phase = MonPhase.watching) ∧
    ((monitorRun observed k).phase = MonPhase.watching → observed k = 0 →
      monitorRun observed (k + 1) =
        { phase := MonPhase.stopped, serverIsRunning := false, socketOpen := false } ∧
      (∀ retVal : Int,
        listenerOnAcceptFailure (monitorRun observed (k + 1)).serverIsRunning retVal =
          (retVal, false))) := by
  constructor
  · intro hphase hpos
    show (monitorPoll (observed k) (monitorRun observed k)).phase = MonPhase.watching
    unfold monitorPoll
    rw [hphase]
    simp only [if_pos hpos]
  · intro hphase hzero
    have hstep : monitorRun observed (k + 1) =
        { phase := MonPhase.stopped, serverIsRunning := false, socketOpen := false } := by
      show monitorPoll (observed k) (monitorRun observed k) = _
      unfold monitorPoll
      rw [hphase]
      simp only [if_pos hzero]
    refine ⟨hstep, ?_⟩
    intro retVal
    rw [hstep]
    unfold listenerOnAcceptFailure
    simp

theorem monitorShutdown_witness :
    (monitorRun (fun n => if n = 0 then 1 else 0) 1).phase = MonPhase.watching ∧
    monitorRun (fun n => if n = 0 then 1 else 0) 2 =
      { phase := MonPhase.stopped, serverIsRunning := false, socketOpen := false } ∧
    listenerOnAcceptFailure
        (monitorRun (fun n => if n = 0 then 1 else 0) 2).serverIsRunning 0 = (0, false) :=
  ⟨by decide,
   ((monitorShutdown_spec (fun n => if n = 0 then 1 else 0) 1).2 (by decide) (by decide)).1,
   ((monitorShutdown_spec (fun n => if n = 0 then 1 else 0) 1).2 (by decide) (by decide)).2 0⟩

/-! ### Client message history ring buffer (C10) -/

/-- The ring-buffer invariant of the client-side `MessageHistory`: fixed
slot count, count within capacity, start and end indices in range, the end
index determined by start and count modulo the capacity, and every stored
message null-terminated within its `MESSAGE_MAX_LENGTH` buffer (at most 79
characters). -/
@[reducible] def HistInv (h : MessageHistory) : Prop :=
  h.messages.length = HISTORY_SIZE ∧
  h.count ≤ HISTORY_SIZE ∧
  h.start < HISTORY_SIZE ∧
  h.endIdx < HISTORY_SIZE ∧
  h.endIdx = (h.start + h.count) % HISTORY_SIZE ∧
  ∀ i, i < HISTORY_SIZE → (h.messages.getD i []).length < MESSAGE_MAX_LENGTH

/-- C10: the client-side message history is a bounded ring buffer —
`add_message_to_history` preserves the invariant (count at most 10, start
and end in [0, 10), every stored message within its 80-byte buffer), the
initial history satisfies it, a non-full add grows the count keeping the
oldest message in place, and once the buffer is full each new message
overwrites the oldest slot while start and end advance together, so only
the 10 most recent messages are retained. -/
theorem add_message_to_history_spec (msg : List Char) (h : MessageHistory)
    (hinv : HistInv h) :
    HistInv (add_message_to_history msg h) ∧
    (h.count < HISTORY_SIZE →
      (add_message_to_history msg h).count = h.count + 1 ∧
      (add_message_to_history msg h).start = h.start) ∧
    (h.count = HISTORY_SIZE →
      (add_message_to_history msg h).count = HISTORY_SIZE ∧
      (add_message_to_history msg h).start = (h.start + 1) % HISTORY_SIZE ∧
      (add_message_to_history msg h).endIdx = (h.endIdx + 1) % HISTORY_SIZE ∧
      (add_message_to_history msg h).messages =
        h.messages.set h.start (msg.take (MESSAGE_MAX_LENGTH - 1))) ∧
    HistInv messageHistoryInit := by
  obtain ⟨hmlen, hcnt, hst, hend, hrel, hbound⟩ := hinv
  have hstored : (msg.take (MESSAGE_MAX_LENGTH - 1)).length < MESSAGE_MAX_LENGTH := by
    rw [List.length_take]
    unfold MESSAGE_MAX_LENGTH
    omega
  have hboundNew : ∀ i, i < HISTORY_SIZE →
      ((h.messages.set h.endIdx (msg.take (MESSAGE_MAX_LENGTH - 1))).getD i []).length <
        MESSAGE_MAX_LENGTH := by
    intro i hi
    by_cases hie : i = h.endIdx
    · subst hie
      rw [getD_set_self _ _ _ _ (by omega)]
      exact hstored
    · rw [getD_set_of_ne _ _ _ _ _ (fun he => hie he.symm)]
      exact hbound i hi
  unfold add_message_to_history
  by_cases hc : h.count < HISTORY_SIZE
  · rw [if_pos hc]
    refine ⟨?_, fun _ => ⟨rfl, rfl⟩, fun hfull => absurd hfull (by omega), ?_⟩
    · refine ⟨by simpa using hmlen, Nat.succ_le_of_lt hc, hst, ?_, ?_, hboundNew⟩
      · exact Nat.mod_lt _ (by decide)
      · show (h.endIdx + 1) % HISTORY_SIZE = (h.start + (h.count + 1)) % HISTORY_SIZE
        unfold HISTORY_SIZE at hrel ⊢
        omega
    · exact ⟨by decide, by decide, by decide, by decide, by decide, by decide⟩
  · rw [if_neg hc]
    have hc10 : h.count = HISTORY_SIZE := by omega
    have hes : h.endIdx = h.start := by
      unfold HISTORY_SIZE at hrel hst hc10
      omega
    refine ⟨?_, fun hlt => absurd hlt hc, fun _ => ⟨hc10, rfl, rfl, by rw [hes]⟩, ?_⟩
    · refine ⟨by simpa using hmlen, hcnt, ?_, ?_, ?_, hboundNew⟩
      · exact Nat.mod_lt _ (by decide)
      · exact Nat.mod_lt _ (by decide)
      · show (h.endIdx + 1) % HISTORY_SIZE =
          ((h.start + 1) % HISTORY_SIZE + h.count) % HISTORY_SIZE
        unfold HISTORY_SIZE at hrel ⊢
        omega
    · exact ⟨by decide, by decide, by decide, by decide, by decide, by decide⟩

theorem add_message_to_history_witness :
    HistInv messageHistoryInit ∧
    HistInv (add_message_to_history "hi there".data messageHistoryInit) ∧
    (add_message_to_history "hi there".data messageHistoryInit).count = 1 :=
  ⟨(add_message_to_history_spec "hi there".data messageHistoryInit (by decide)).2.2.2,
   (add_message_to_history_spec "hi there".data messageHistoryInit (by decide)).1,
   ((add_message_to_history_spec "hi there".data messageHistoryInit (by decide)).2.1
     (by decide)).1⟩

end ChatSystem
